import Mathlib

/-!
Verification of the Chapter-2 CPU ray tracer
(`ComputerGraphicsFromScratch.cpp`).

The C code works with IEEE-754 `float`; this development idealises finite
float arithmetic as real arithmetic.  Float values that can legitimately be
`INFINITY` in the program (the two parametric distances of a
`RayIntersection`, the `tmin`/`tmax` bounds, and the running `closest_t` in
`TraceRay`) are modelled as `EReal`, with `⊤` playing the role of the
`INFINITY` sentinel.  The image buffer manipulated through `Image*` is
modelled as a function from integer screen coordinates to colors, threaded
explicitly through each operation that receives the buffer pointer.
-/

noncomputable section

namespace CG

/-- 3D vector with real components, modelling raylib's `Vector3`. -/
structure Vec3 where
  x : ℝ
  y : ℝ
  z : ℝ

/-- RGBA color with 8-bit channels, modelling raylib's `Color`. -/
structure Color where
  r : ℕ
  g : ℕ
  b : ℕ
  a : ℕ

/-- raymath `Vector3Zero`. -/
def Vector3Zero : Vec3 := ⟨0, 0, 0⟩

/-- raymath `Vector3Subtract`. -/
def Vector3Subtract (v1 v2 : Vec3) : Vec3 := ⟨v1.x - v2.x, v1.y - v2.y, v1.z - v2.z⟩

/-- raymath `Vector3Add`. -/
def Vector3Add (v1 v2 : Vec3) : Vec3 := ⟨v1.x + v2.x, v1.y + v2.y, v1.z + v2.z⟩

/-- raymath `Vector3Scale`. -/
def Vector3Scale (v : Vec3) (scalar : ℝ) : Vec3 := ⟨v.x * scalar, v.y * scalar, v.z * scalar⟩

/-- raymath `Vector3DotProduct`. -/
def Vector3DotProduct (v1 v2 : Vec3) : ℝ := v1.x * v2.x + v1.y * v2.y + v1.z * v2.z

/-- raymath `Vector3Length`: `sqrtf(x*x + y*y + z*z)`. -/
def Vector3Length (v : Vec3) : ℝ := Real.sqrt (v.x * v.x + v.y * v.y + v.z * v.z)

/-- raylib palette constant `RED`. -/
def RED : Color := ⟨230, 41, 55, 255⟩

/-- raylib palette constant `GREEN`. -/
def GREEN : Color := ⟨0, 228, 48, 255⟩

/-- raylib palette constant `BLUE`. -/
def BLUE : Color := ⟨0, 121, 241, 255⟩

/-- raylib palette constant `YELLOW`. -/
def YELLOW : Color := ⟨253, 249, 0, 255⟩

/-- raylib palette constant `WHITE`. -/
def WHITE : Color := ⟨255, 255, 255, 255⟩

/-- `struct Sphere` from the source. -/
structure Sphere where
  center : Vec3
  radius : ℝ
  color : Color

/-- `struct RayIntersection` from the source: a pair of parametric
distances; `⊤` models the `INFINITY` sentinel. -/
structure RayIntersection where
  t1 : EReal
  t2 : EReal

/-- `enum LightType` from the source. -/
inductive LightType where
  | POINT
  | DIRECTIONAL
  | AMBIENT

/-- `struct Light` from the source. -/
structure Light where
  position : Vec3
  direction : Vec3
  intensity : ℝ
  type : LightType

/-- raylib `Ray`: origin (`position`) plus direction. -/
structure Ray where
  position : Vec3
  direction : Vec3

/-- `const Vector3 CAMERA_ORIGIN = { 0 };` -/
def CAMERA_ORIGIN : Vec3 := ⟨0, 0, 0⟩

/-- `#define CAMERA_ORIGIN_DISTANCE 1.0f` -/
def CAMERA_ORIGIN_DISTANCE : ℝ := 1

/-- `#define VIEWPORT_WIDTH 1.0f` -/
def VIEWPORT_WIDTH : ℝ := 1

/-- `#define VIEWPORT_HEIGHT 1.0f` -/
def VIEWPORT_HEIGHT : ℝ := 1

/-- `#define CANVAS_WIDTH 800` -/
def CANVAS_WIDTH : ℤ := 800

/-- `#define CANVAS_HEIGHT 800` -/
def CANVAS_HEIGHT : ℤ := 800

/-- First entry of the `objects` scene array. -/
def sphere0 : Sphere := ⟨⟨0, -1, 3⟩, 1, RED⟩

/-- Second entry of the `objects` scene array. -/
def sphere1 : Sphere := ⟨⟨2, 0, 4⟩, 1, BLUE⟩

/-- Third entry of the `objects` scene array. -/
def sphere2 : Sphere := ⟨⟨-2, 0, 4⟩, 1, GREEN⟩

/-- Fourth entry of the `objects` scene array (the big yellow ground sphere). -/
def sphere3 : Sphere := ⟨⟨0, -5001, 0⟩, 5000, YELLOW⟩

/-- The fixed scene array `Sphere objects[]`. -/
def objects : List Sphere := [sphere0, sphere1, sphere2, sphere3]

/-- The fixed scene array `Light lights[]`. -/
def lights : List Light :=
  [⟨⟨2, 1, 0⟩, ⟨0, -1, 3⟩, 0.6, LightType.POINT⟩,
   ⟨⟨0, 0, 0⟩, ⟨1, 4, 4⟩, 0.2, LightType.DIRECTIONAL⟩,
   ⟨⟨0, 0, 0⟩, ⟨0, 0, 0⟩, 0.2, LightType.AMBIENT⟩]

/-- raymath `Clamp`: clamp `value` into `[lo, hi]` (lower bound applied
first, exactly as in the C source). -/
def Clamp (value lo hi : ℝ) : ℝ := min (max value lo) hi

/-- `ColorMultiply` from the source: each channel is scaled by `factor`,
clamped to `[0, 255]`, and truncated to an integer channel value; alpha is
forced to 255. -/
def ColorMultiply (col : Color) (factor : ℝ) : Color :=
  ⟨⌊Clamp ((col.r : ℝ) * factor) 0 255⌋₊,
   ⌊Clamp ((col.g : ℝ) * factor) 0 255⌋₊,
   ⌊Clamp ((col.b : ℝ) * factor) 0 255⌋₊,
   255⟩

/-- The CPU pixel buffer (`Image`), modelled as a total map from integer
screen coordinates to colors. -/
abbrev ImageT : Type := ℤ × ℤ → Color

/-- `SetPixel` from the source (forwarding to `ImageDrawPixel`): store
color `c` at screen coordinate `(x, y)`. -/
def SetPixel (buf : ImageT) (x y : ℤ) (c : Color) : ImageT :=
  fun q => if q = (x, y) then c else buf q

/-- Quadratic coefficient `a = dot(R.direction, R.direction)` computed in
`IntersectRaySphere`. -/
def coeffA (R : Ray) : ℝ := Vector3DotProduct R.direction R.direction

/-- Quadratic coefficient `b = 2 * dot(CO, R.direction)` computed in
`IntersectRaySphere`, where `CO = CAMERA_ORIGIN - sp.center` exactly as in
the source (the source uses the global camera origin here, not the ray's
own `position` field). -/
def coeffB (R : Ray) (sp : Sphere) : ℝ :=
  2 * Vector3DotProduct (Vector3Subtract CAMERA_ORIGIN sp.center) R.direction

/-- Quadratic coefficient `c = dot(CO, CO) - r*r` computed in
`IntersectRaySphere`, with `CO = CAMERA_ORIGIN - sp.center`. -/
def coeffC (R : Ray) (sp : Sphere) : ℝ :=
  Vector3DotProduct (Vector3Subtract CAMERA_ORIGIN sp.center)
      (Vector3Subtract CAMERA_ORIGIN sp.center) -
    sp.radius * sp.radius

/-- `discriminant = b*b - 4*a*c` computed in `IntersectRaySphere`. -/
def discriminant (R : Ray) (sp : Sphere) : ℝ :=
  coeffB R sp * coeffB R sp - 4 * coeffA R * coeffC R sp

/-- `IntersectRaySphere` from the source: negative discriminant returns the
`{INFINITY, INFINITY}` sentinel pair; otherwise the two quadratic roots
`(-b ± sqrt(discriminant)) / (2a)`, `t1` with `+`, `t2` with `-`. -/
def IntersectRaySphere (R : Ray) (sp : Sphere) : RayIntersection :=
  if discriminant R sp < 0 then ⟨⊤, ⊤⟩
  else
    ⟨(((-coeffB R sp + Real.sqrt (discriminant R sp)) / (2 * coeffA R) : ℝ) : EReal),
     (((-coeffB R sp - Real.sqrt (discriminant R sp)) / (2 * coeffA R) : ℝ) : EReal)⟩

/-- The amount added to `light_contrib` by one iteration of the light loop
in `ComputeLighting`: the intensity itself for an ambient light, and
`intensity * dot(normal, beam) / (|normal| * |beam|)` for point and
directional lights (beam towards the light's position for point lights,
the stored direction for directional lights). -/
def lightContrib (normal point : Vec3) (l : Light) : ℝ :=
  match l.type with
  | LightType.AMBIENT => l.intensity
  | LightType.POINT =>
      l.intensity *
        (Vector3DotProduct normal (Vector3Subtract l.position point) /
          (Vector3Length normal * Vector3Length (Vector3Subtract l.position point)))
  | LightType.DIRECTIONAL =>
      l.intensity *
        (Vector3DotProduct normal l.direction /
          (Vector3Length normal * Vector3Length l.direction))

/-- The light-accumulation loop of `ComputeLighting`, parametrised by the
light list it iterates over: `normal = point - sphere_center` is computed
once, then each light adds its contribution to the accumulator that starts
at `0`. -/
def ComputeLightingWith (ls : List Light) (point sphere_center : Vec3) : ℝ :=
  ls.foldl
    (fun light_contrib l =>
      light_contrib + lightContrib (Vector3Subtract point sphere_center) point l)
    0

/-- `ComputeLighting` from the source: the loop above run over the fixed
global `lights` array. -/
def ComputeLighting (point sphere_center : Vec3) : ℝ :=
  ComputeLightingWith lights point sphere_center

/-- One iteration of the sphere loop in `TraceRay`, acting on the state
`(closest_t, closest_sphere)`: obtain the sphere's `RayIntersection`;
if both components differ from the `INFINITY` sentinel, test `t1` and then
`t2` against `tmin ≤ t ≤ tmax` and strict improvement over `closest_t`,
updating the state on success. -/
def traceStep (tmin tmax : EReal) (R : Ray) (s : EReal × Option Sphere) (sph : Sphere) :
    EReal × Option Sphere :=
  let collision := IntersectRaySphere R sph
  if collision.t1 ≠ ⊤ ∧ collision.t2 ≠ ⊤ then
    let s1 :=
      if (tmin ≤ collision.t1 ∧ collision.t1 ≤ tmax) ∧ collision.t1 < s.1 then
        (collision.t1, some sph)
      else s
    if (tmin ≤ collision.t2 ∧ collision.t2 ≤ tmax) ∧ collision.t2 < s1.1 then
      (collision.t2, some sph)
    else s1
  else s

/-- `TraceRay` from the source: scan all spheres starting from
`closest_t = INFINITY`, `closest_sphere = NULL`; if no sphere was recorded
return `WHITE`, otherwise shade the recorded sphere at the intersection
point `R.position + closest_t * R.direction`.  The image buffer received
through the `Image*` parameter is threaded through unchanged. -/
def TraceRay (img : ImageT) (R : Ray) (tmin tmax : EReal) : Color × ImageT :=
  match objects.foldl (traceStep tmin tmax R) ((⊤ : EReal), (none : Option Sphere)) with
  | (_, none) => (WHITE, img)
  | (closest_t, some closest_sphere) =>
      (ColorMultiply closest_sphere.color
        (ComputeLighting
          (Vector3Add R.position (Vector3Scale R.direction closest_t.toReal))
          closest_sphere.center),
       img)

/-- The accepted candidate t-values contributed by one sphere, in the order
`TraceRay` examines them: nothing when either component is the sentinel,
otherwise `t1` and then `t2`, each kept when `tmin ≤ t ≤ tmax`. -/
def candOf (R : Ray) (tmin tmax : EReal) (sph : Sphere) : List (Sphere × EReal) :=
  let collision := IntersectRaySphere R sph
  if collision.t1 ≠ ⊤ ∧ collision.t2 ≠ ⊤ then
    (if tmin ≤ collision.t1 ∧ collision.t1 ≤ tmax then [(sph, collision.t1)] else []) ++
      (if tmin ≤ collision.t2 ∧ collision.t2 ≤ tmax then [(sph, collision.t2)] else [])
  else []

/-- All accepted candidates of a `TraceRay` scan, in scan order. -/
def candidates (R : Ray) (tmin tmax : EReal) : List (Sphere × EReal) :=
  objects.flatMap (candOf R tmin tmax)

/-- The strict-improvement update applied to the `(closest_t,
closest_sphere)` state for one accepted candidate. -/
def updMin (s : EReal × Option Sphere) (c : Sphere × EReal) : EReal × Option Sphere :=
  if c.2 < s.1 then (c.2, some c.1) else s

/-- Folding the strict-improvement update over a candidate list. -/
def runSpec (s : EReal × Option Sphere) (l : List (Sphere × EReal)) :
    EReal × Option Sphere :=
  l.foldl updMin s

/-- `CanvasToScreen` from the source: centered canvas coordinates to
top-left screen coordinates. -/
def CanvasToScreen (canvas_point : ℤ × ℤ) : ℤ × ℤ :=
  (CANVAS_WIDTH / 2 + canvas_point.1, CANVAS_HEIGHT / 2 - canvas_point.2)

/-- `CanvasToViewport` from the source: scale canvas pixel units to
viewport physical units at forward distance `CAMERA_ORIGIN_DISTANCE`. -/
def CanvasToViewport (canvas_point : ℤ × ℤ) : Vec3 :=
  ⟨(canvas_point.1 : ℝ) * (VIEWPORT_WIDTH / (CANVAS_WIDTH : ℝ)),
   (canvas_point.2 : ℝ) * (VIEWPORT_HEIGHT / (CANVAS_HEIGHT : ℝ)),
   CAMERA_ORIGIN_DISTANCE⟩

/-- The x-coordinates visited by the outer loop of `DrawScene`, in loop
order: `-CANVAS_WIDTH/2` up to `CANVAS_WIDTH/2 - 1`. -/
def canvasXs : List ℤ :=
  (List.range CANVAS_WIDTH.toNat).map (fun (i : ℕ) => (i : ℤ) - CANVAS_WIDTH / 2)

/-- The y-coordinates visited by the inner loop of `DrawScene`, in loop
order. -/
def canvasYs : List ℤ :=
  (List.range CANVAS_HEIGHT.toNat).map (fun (i : ℕ) => (i : ℤ) - CANVAS_HEIGHT / 2)

/-- The canvas coordinates visited by `DrawScene`, in loop order (outer
loop over x, inner loop over y). -/
def scanOrder : List (ℤ × ℤ) :=
  canvasXs.flatMap (fun x => canvasYs.map (fun y => (x, y)))

/-- The ray built by `DrawScene` for a canvas coordinate: origin
`CAMERA_ORIGIN`, direction `CanvasToViewport(p) - CAMERA_ORIGIN`. -/
def pixelRay (canvas_point : ℤ × ℤ) : Ray :=
  ⟨CAMERA_ORIGIN, Vector3Subtract (CanvasToViewport canvas_point) CAMERA_ORIGIN⟩

/-- The body of the per-pixel loop in `DrawScene`: trace the pixel's ray
with `tmin = 1.0`, `tmax = INFINITY`, then store the returned color at the
screen coordinate obtained from `CanvasToScreen`. -/
def drawStep (img : ImageT) (canvas_point : ℤ × ℤ) : ImageT :=
  let res := TraceRay img (pixelRay canvas_point) 1 ⊤
  SetPixel res.2 (CanvasToScreen canvas_point).1 (CanvasToScreen canvas_point).2 res.1

/-- `DrawScene` from the source: run the per-pixel loop over every visited
canvas coordinate. -/
def DrawScene (img : ImageT) : ImageT := scanOrder.foldl drawStep img

/-- Modelled from the spec: the quadratic coefficient `b` as §4.1 of the
spec describes it, computed from the ray's OWN origin
(`originOffset = ray origin - sphere center`); used only to compare the
spec's description against the source's `coeffB`. -/
def coeffB_specOrigin (R : Ray) (sp : Sphere) : ℝ :=
  2 * Vector3DotProduct (Vector3Subtract R.position sp.center) R.direction

/-- A concrete ray from the camera origin straight along +z. -/
def ray0 : Ray := ⟨⟨0, 0, 0⟩, ⟨0, 0, 1⟩⟩

/-- A concrete ray from the camera origin straight along -z (away from
every sphere's valid range). -/
def rayDown : Ray := ⟨⟨0, 0, 0⟩, ⟨0, 0, -1⟩⟩

/-- A concrete ray with the same direction as `rayDown` but a different
origin. -/
def rayShifted : Ray := ⟨⟨0, 0, 6⟩, ⟨0, 0, -1⟩⟩

/-- A concrete all-white buffer, as produced by `GenImageColor(…, WHITE)`. -/
def initialImage : ImageT := fun _ => WHITE

/-! ## Helper lemmas about the `TraceRay` scan -/

theorem runSpec_append (s : EReal × Option Sphere) (l1 l2 : List (Sphere × EReal)) :
    runSpec s (l1 ++ l2) = runSpec (runSpec s l1) l2 := by
  show (l1 ++ l2).foldl updMin s = l2.foldl updMin (l1.foldl updMin s)
  exact List.foldl_append updMin s l1 l2

theorem runSpec_accept (s : EReal × Option Sphere) (sph : Sphere) (t : EReal)
    (A : Prop) [Decidable A] :
    (if A ∧ t < s.1 then (t, some sph) else s) = runSpec s (if A then [(sph, t)] else []) := by
  by_cases hA : A
  · simp only [hA, true_and, if_true, runSpec, List.foldl_cons, List.foldl_nil, updMin]
  · simp [hA, runSpec]

theorem traceStep_eq (tmin tmax : EReal) (R : Ray) (s : EReal × Option Sphere) (sph : Sphere) :
    traceStep tmin tmax R s sph = runSpec s (candOf R tmin tmax sph) := by
  simp only [traceStep, candOf]
  by_cases hs : (IntersectRaySphere R sph).t1 ≠ ⊤ ∧ (IntersectRaySphere R sph).t2 ≠ ⊤
  · rw [if_pos hs, if_pos hs, runSpec_append, ← runSpec_accept, ← runSpec_accept]
  · rw [if_neg hs, if_neg hs]
    rfl

theorem foldl_traceStep_eq (tmin tmax : EReal) (R : Ray) :
    ∀ (l : List Sphere) (s : EReal × Option Sphere),
      l.foldl (traceStep tmin tmax R) s = runSpec s (l.flatMap (candOf R tmin tmax))
  | [], _ => rfl
  | sph :: l, s => by
      rw [List.foldl_cons, List.flatMap_cons, runSpec_append, ← traceStep_eq]
      exact foldl_traceStep_eq tmin tmax R l (traceStep tmin tmax R s sph)

theorem runSpec_id :
    ∀ (l : List (Sphere × EReal)) (s : EReal × Option Sphere),
      (∀ q ∈ l, ¬(q.2 < s.1)) → runSpec s l = s
  | [], _, _ => rfl
  | c :: l, s, h => by
      show (c :: l).foldl updMin s = s
      rw [List.foldl_cons]
      have hc : updMin s c = s := if_neg (h c (List.mem_cons_self c l))
      rw [hc]
      exact runSpec_id l s (fun q hq => h q (List.mem_cons_of_mem c hq))

theorem runSpec_first_min :
    ∀ (l : List (Sphere × EReal)) (s : EReal × Option Sphere) (i : ℕ) (c : Sphere × EReal),
      l[i]? = some c →
      (∀ q ∈ l, c.2 ≤ q.2) →
      (∀ j, j < i → ∀ q, l[j]? = some q → c.2 < q.2) →
      c.2 < s.1 →
      runSpec s l = (c.2, some c.1)
  | [], _, i, _, hget, _, _, _ => by simp at hget
  | d :: l, s, 0, c, hget, hmin, _, hlt => by
      rw [List.getElem?_cons_zero] at hget
      obtain rfl : d = c := by simpa using hget
      show (d :: l).foldl updMin s = _
      rw [List.foldl_cons]
      have h1 : updMin s d = (d.2, some d.1) := if_pos hlt
      rw [h1]
      exact runSpec_id l _ (fun q hq => not_lt.mpr (hmin q (List.mem_cons_of_mem d hq)))
  | d :: l, s, i + 1, c, hget, hmin, hfirst, hlt => by
      rw [List.getElem?_cons_succ] at hget
      have hdc : c.2 < d.2 := hfirst 0 (Nat.succ_pos i) d List.getElem?_cons_zero
      show (d :: l).foldl updMin s = _
      rw [List.foldl_cons]
      have hs' : c.2 < (updMin s d).1 := by
        unfold updMin
        split
        · exact hdc
        · exact hlt
      exact runSpec_first_min l (updMin s d) i c hget
        (fun q hq => hmin q (List.mem_cons_of_mem d hq))
        (fun j hj q hq =>
          hfirst (j + 1) (Nat.succ_lt_succ hj) q (by rw [List.getElem?_cons_succ]; exact hq))
        hs'

theorem candidates_ne_top (R : Ray) (tmin tmax : EReal) :
    ∀ q ∈ candidates R tmin tmax, q.2 ≠ ⊤ := by
  intro q hq
  rw [candidates, List.mem_flatMap] at hq
  obtain ⟨sph, _, hq⟩ := hq
  simp only [candOf] at hq
  split at hq
  case isTrue h =>
    rcases List.mem_append.mp hq with hq' | hq'
    · split at hq'
      · simp only [List.mem_singleton] at hq'
        subst hq'
        exact h.1
      · simp at hq'
    · split at hq'
      · simp only [List.mem_singleton] at hq'
        subst hq'
        exact h.2
      · simp at hq'
  case isFalse h => simp at hq

theorem traceRay_snd (img : ImageT) (R : Ray) (tmin tmax : EReal) :
    (TraceRay img R tmin tmax).2 = img := by
  unfold TraceRay
  split <;> rfl

theorem traceRay_fst_congr (img img' : ImageT) (R : Ray) (tmin tmax : EReal) :
    (TraceRay img R tmin tmax).1 = (TraceRay img' R tmin tmax).1 := by
  cases hfold : objects.foldl (traceStep tmin tmax R) ((⊤ : EReal), (none : Option Sphere)) with
  | mk t o => cases o <;> simp [TraceRay, hfold]

theorem coeffA_nonneg (R : Ray) : 0 ≤ coeffA R := by
  unfold coeffA Vector3DotProduct
  nlinarith [mul_self_nonneg R.direction.x, mul_self_nonneg R.direction.y,
    mul_self_nonneg R.direction.z]

/-! ## Helper lemmas about the `DrawScene` raster scan -/

theorem mem_canvasXs (x : ℤ) : x ∈ canvasXs ↔ -400 ≤ x ∧ x < 400 := by
  simp only [canvasXs, CANVAS_WIDTH, List.mem_map, List.mem_range]
  constructor
  · rintro ⟨i, hi, rfl⟩
    omega
  · intro hx
    exact ⟨(x + 400).toNat, by omega, by omega⟩

theorem mem_canvasYs (y : ℤ) : y ∈ canvasYs ↔ -400 ≤ y ∧ y < 400 := by
  simp only [canvasYs, CANVAS_HEIGHT, List.mem_map, List.mem_range]
  constructor
  · rintro ⟨i, hi, rfl⟩
    omega
  · intro hy
    exact ⟨(y + 400).toNat, by omega, by omega⟩

theorem mem_scanOrder (p : ℤ × ℤ) :
    p ∈ scanOrder ↔ -400 ≤ p.1 ∧ p.1 < 400 ∧ -400 ≤ p.2 ∧ p.2 < 400 := by
  simp only [scanOrder, List.mem_flatMap, List.mem_map]
  constructor
  · rintro ⟨x, hx, y, hy, rfl⟩
    rw [mem_canvasXs] at hx
    rw [mem_canvasYs] at hy
    exact ⟨hx.1, hx.2, hy.1, hy.2⟩
  · intro h
    exact ⟨p.1, (mem_canvasXs p.1).mpr ⟨h.1, h.2.1⟩, p.2,
      (mem_canvasYs p.2).mpr ⟨h.2.2.1, h.2.2.2⟩, rfl⟩

theorem canvasXs_nodup : canvasXs.Nodup := by
  simp only [canvasXs, CANVAS_WIDTH]
  exact (List.nodup_range _).map (fun a b hab => by omega)

theorem canvasYs_nodup : canvasYs.Nodup := by
  simp only [canvasYs, CANVAS_HEIGHT]
  exact (List.nodup_range _).map (fun a b hab => by omega)

theorem scanOrder_nodup : scanOrder.Nodup := by
  rw [scanOrder, List.nodup_flatMap]
  constructor
  · intro x _
    exact canvasYs_nodup.map (fun a b hab => by injection hab)
  · refine canvasXs_nodup.imp ?_
    intro a b hab p hpa hpb
    simp only [List.mem_map] at hpa hpb
    obtain ⟨y1, _, rfl⟩ := hpa
    obtain ⟨y2, _, h⟩ := hpb
    injection h with h1 _
    exact hab h1.symm

theorem canvasToScreen_injective : Function.Injective CanvasToScreen := by
  intro p q h
  simp only [CanvasToScreen, CANVAS_WIDTH, CANVAS_HEIGHT, Prod.mk.injEq] at h
  obtain ⟨h1, h2⟩ := h
  exact Prod.ext (by omega) (by omega)

theorem targets_nodup : (scanOrder.map CanvasToScreen).Nodup :=
  scanOrder_nodup.map canvasToScreen_injective

theorem foldl_draw_untouched :
    ∀ (l : List (ℤ × ℤ)) (img : ImageT) (k : ℤ × ℤ),
      (∀ q ∈ l, CanvasToScreen q ≠ k) → (l.foldl drawStep img) k = img k
  | [], _, _, _ => rfl
  | q :: l, img, k, h => by
      rw [List.foldl_cons]
      rw [foldl_draw_untouched l (drawStep img q) k (fun r hr => h r (List.mem_cons_of_mem q hr))]
      simp only [drawStep, SetPixel]
      rw [if_neg, traceRay_snd]
      intro hk
      exact h q (List.mem_cons_self q l) (by rw [hk])

theorem foldl_draw_eval :
    ∀ (l : List (ℤ × ℤ)) (img : ImageT) (p : ℤ × ℤ),
      p ∈ l → (l.map CanvasToScreen).Nodup →
      (l.foldl drawStep img) (CanvasToScreen p) = (TraceRay img (pixelRay p) 1 ⊤).1
  | [], _, _, hp, _ => absurd hp (List.not_mem_nil _)
  | q :: l, img, p, hp, hnd => by
      rw [List.map_cons, List.nodup_cons] at hnd
      rw [List.foldl_cons]
      rcases List.mem_cons.mp hp with rfl | hp'
      · rw [foldl_draw_untouched l (drawStep img p) (CanvasToScreen p)
          (fun r hr hrp => hnd.1 (hrp ▸ List.mem_map_of_mem CanvasToScreen hr))]
        simp [drawStep, SetPixel]
      · rw [foldl_draw_eval l (drawStep img q) p hp' hnd.2]
        exact traceRay_fst_congr _ img _ _ _

theorem computeLightingWith_sum_aux (point sphere_center : Vec3) :
    ∀ (ls : List Light) (acc : ℝ),
      ls.foldl
          (fun light_contrib l =>
            light_contrib + lightContrib (Vector3Subtract point sphere_center) point l)
          acc =
        acc + (ls.map (lightContrib (Vector3Subtract point sphere_center) point)).sum
  | [], acc => by simp
  | l :: ls, acc => by
      rw [List.foldl_cons, List.map_cons, List.sum_cons,
        computeLightingWith_sum_aux point sphere_center ls]
      ring

/-! ## Claim theorems -/

/-- C1: `TraceRay` scans the spheres in their fixed sequence order and accepts a
t-value of a sphere's `RayIntersection` as a candidate exactly when it is not the
`INFINITY` sentinel, lies in `[tmin, tmax]`, and strictly improves on the closest
accepted t so far; it returns the shaded color of the sphere owning the smallest
accepted t, the first sphere in sequence order winning exact ties.  Formally: if
entry `i` of the accepted-candidate list `candidates` (listed in scan order, with
the sentinel and range tests applied) carries the minimal t-value and every
earlier entry is strictly larger, then `TraceRay` returns the shaded color of
that entry's sphere at that t-value. -/
theorem traceRay_nearest_hit (img : ImageT) (R : Ray) (tmin tmax : EReal)
    (i : ℕ) (c : Sphere × EReal)
    (hget : (candidates R tmin tmax)[i]? = some c)
    (hmin : ∀ q ∈ candidates R tmin tmax, c.2 ≤ q.2)
    (hfirst : ∀ j, j < i → ∀ q, (candidates R tmin tmax)[j]? = some q → c.2 < q.2) :
    TraceRay img R tmin tmax =
      (ColorMultiply c.1.color
        (ComputeLighting (Vector3Add R.position (Vector3Scale R.direction c.2.toReal))
          c.1.center),
       img) := by
  have hmem : c ∈ candidates R tmin tmax := List.getElem?_mem hget
  have htop : c.2 < ⊤ := lt_top_iff_ne_top.mpr (candidates_ne_top R tmin tmax c hmem)
  have hfold :
      objects.foldl (traceStep tmin tmax R) ((⊤ : EReal), (none : Option Sphere)) =
        (c.2, some c.1) := by
    rw [foldl_traceStep_eq]
    exact runSpec_first_min (candidates R tmin tmax) _ i c hget hmin hfirst htop
  unfold TraceRay
  rw [hfold]

/-- C2: `IntersectRaySphere` returns both components equal to the `INFINITY`
sentinel when the discriminant `b*b - 4*a*c` is negative; otherwise it returns
`t1 = (-b + sqrt(discriminant)) / (2a)` and `t2 = (-b - sqrt(discriminant)) / (2a)`
in that order, and whenever both components are finite (not the sentinel),
`t1 ≥ t2` holds. -/
theorem intersectRaySphere_roots (R : Ray) (sp : Sphere) :
    (discriminant R sp < 0 → IntersectRaySphere R sp = ⟨⊤, ⊤⟩) ∧
    (0 ≤ discriminant R sp →
      IntersectRaySphere R sp =
        ⟨(((-coeffB R sp + Real.sqrt (discriminant R sp)) / (2 * coeffA R) : ℝ) : EReal),
         (((-coeffB R sp - Real.sqrt (discriminant R sp)) / (2 * coeffA R) : ℝ) : EReal)⟩) ∧
    ((IntersectRaySphere R sp).t1 ≠ ⊤ → (IntersectRaySphere R sp).t2 ≠ ⊤ →
      (IntersectRaySphere R sp).t2 ≤ (IntersectRaySphere R sp).t1) := by
  refine ⟨fun h => if_pos h, fun h => if_neg (not_lt.mpr h), fun h1 _ => ?_⟩
  by_cases hd : discriminant R sp < 0
  · exfalso
    apply h1
    rw [IntersectRaySphere, if_pos hd]
  · rw [IntersectRaySphere, if_neg hd]
    dsimp only
    rw [EReal.coe_le_coe_iff]
    rcases (coeffA_nonneg R).lt_or_eq with ha | ha
    · have h2a : (0 : ℝ) < 2 * coeffA R := by linarith
      have hs : 0 ≤ Real.sqrt (discriminant R sp) := Real.sqrt_nonneg _
      gcongr
      linarith
    · rw [← ha]
      norm_num

/-- C3 counterexample: `IntersectRaySphere` ignores the ray's origin field.
`rayShifted` and `rayDown` share a direction but have different origins, yet
receive identical `RayIntersection`s, and the spec's own-origin coefficient
formula disagrees with the one the code computes at `rayShifted`. -/
theorem intersect_uses_camera_origin_cex :
    rayShifted.direction = rayDown.direction ∧
    rayShifted.position ≠ rayDown.position ∧
    IntersectRaySphere rayShifted sphere0 = IntersectRaySphere rayDown sphere0 ∧
    coeffB_specOrigin rayShifted sphere0 ≠ coeffB rayShifted sphere0 := by
  refine ⟨rfl, ?_, rfl, ?_⟩
  · intro hcontra
    have h6 : (6 : ℝ) = 0 := congrArg Vec3.z hcontra
    norm_num at h6
  · norm_num [coeffB_specOrigin, coeffB, Vector3DotProduct, Vector3Subtract, CAMERA_ORIGIN,
      rayShifted, sphere0]

/-- C3 (amended): `IntersectRaySphere` computes its quadratic coefficients from
`originOffset = CAMERA_ORIGIN - sphere center`, so its result depends only on the
ray's direction: two rays with equal direction always receive the same
`RayIntersection`, regardless of their origins. -/
theorem intersectRaySphere_origin_independent (R1 R2 : Ray) (sp : Sphere)
    (h : R1.direction = R2.direction) :
    IntersectRaySphere R1 sp = IntersectRaySphere R2 sp := by
  unfold IntersectRaySphere discriminant coeffA coeffB coeffC
  rw [h]

/-- Witness for the amended C3 theorem at the concrete rays of the
counterexample. -/
theorem intersectRaySphere_origin_independent_w :
    IntersectRaySphere rayShifted sphere0 = IntersectRaySphere rayDown sphere0 :=
  intersectRaySphere_origin_independent rayShifted rayDown sphere0 rfl

/-- C5: `ComputeLighting` returns the sum, over the fixed light sequence, of the
per-light contributions: the intensity itself for ambient lights, and
`intensity * dot(normal, beam) / (|normal| * |beam|)` for point and directional
lights, with negative cosine terms included unclamped; and the light loop run on
a single ambient light of intensity 0.5 returns exactly 0.5 for any
point/sphere-center pair. -/
theorem computeLighting_sum :
    (∀ point sphere_center : Vec3,
      ComputeLighting point sphere_center =
        (lights.map (lightContrib (Vector3Subtract point sphere_center) point)).sum) ∧
    (∀ point sphere_center : Vec3,
      ComputeLightingWith [⟨Vector3Zero, Vector3Zero, 0.5, LightType.AMBIENT⟩]
          point sphere_center = 0.5) := by
  constructor
  · intro point sphere_center
    rw [ComputeLighting, ComputeLightingWith, computeLightingWith_sum_aux, zero_add]
  · intro point sphere_center
    simp [ComputeLightingWith, lightContrib]

/-- C6: for every canvas coordinate it visits, `DrawScene` maps it to the
viewport point via `CanvasToViewport` (the linear scale to the viewport plane at
the projection distance), builds the ray with direction `viewportPoint -
CAMERA_ORIGIN` (unnormalized), traces it with `tmin = 1` and `tmax = INFINITY`,
and writes the returned color at the screen coordinate `CanvasToScreen` gives. -/
theorem drawScene_pixel (img : ImageT) (x y : ℤ)
    (hx : -400 ≤ x ∧ x < 400) (hy : -400 ≤ y ∧ y < 400) :
    DrawScene img (CanvasToScreen (x, y)) =
      (TraceRay img
          ⟨CAMERA_ORIGIN, Vector3Subtract (CanvasToViewport (x, y)) CAMERA_ORIGIN⟩
          1 ⊤).1 := by
  have hp : (x, y) ∈ scanOrder := (mem_scanOrder (x, y)).mpr ⟨hx.1, hx.2, hy.1, hy.2⟩
  exact foldl_draw_eval scanOrder img (x, y) hp targets_nodup

/-- Witness for C6 at the canvas center (0, 0). -/
theorem drawScene_pixel_w :
    DrawScene initialImage (CanvasToScreen (0, 0)) =
      (TraceRay initialImage
          ⟨CAMERA_ORIGIN, Vector3Subtract (CanvasToViewport (0, 0)) CAMERA_ORIGIN⟩
          1 ⊤).1 :=
  drawScene_pixel initialImage 0 0 (by norm_num) (by norm_num)

/-- C4 (refuted): the raster scan of `DrawScene` misses screen row 0 entirely —
every visited canvas coordinate remaps to a screen row in `1..800`, none of the
pixel writes targets the in-range coordinate `(0, 0)` (whose buffer cell is
left unchanged), and the coordinate `(0, 800)`, outside the `0 ≤ sy < 800`
range, does receive a write. -/
theorem drawScene_coverage_gap :
    (∀ q ∈ scanOrder, 1 ≤ (CanvasToScreen q).2 ∧ (CanvasToScreen q).2 ≤ 800 ∧
      CanvasToScreen q ≠ ((0 : ℤ), (0 : ℤ))) ∧
    (((0 : ℤ), (800 : ℤ)) ∈ scanOrder.map CanvasToScreen) ∧
    ∀ img : ImageT, DrawScene img (0, 0) = img (0, 0) := by
  have hrow0 : ∀ q ∈ scanOrder, 1 ≤ (CanvasToScreen q).2 ∧ (CanvasToScreen q).2 ≤ 800 ∧
      CanvasToScreen q ≠ ((0 : ℤ), (0 : ℤ)) := by
    intro q hq
    rw [mem_scanOrder] at hq
    refine ⟨?_, ?_, ?_⟩
    · simp only [CanvasToScreen, CANVAS_HEIGHT]
      omega
    · simp only [CanvasToScreen, CANVAS_HEIGHT]
      omega
    · intro hcontra
      simp only [CanvasToScreen, CANVAS_WIDTH, CANVAS_HEIGHT, Prod.mk.injEq] at hcontra
      omega
  refine ⟨hrow0, ?_, ?_⟩
  · rw [List.mem_map]
    refine ⟨(-400, -400), (mem_scanOrder _).mpr (by norm_num), ?_⟩
    norm_num [CanvasToScreen, CANVAS_WIDTH, CANVAS_HEIGHT]
  · intro img
    exact foldl_draw_untouched scanOrder img (0, 0) (fun q hq => (hrow0 q hq).2.2)

/-- C7: a ray for which no sphere yields an accepted candidate t (the accepted
candidate list is empty) makes `TraceRay` return the configured background/miss
color — `WHITE` in this program — unchanged, with no lighting computation and
the buffer untouched. -/
theorem traceRay_background (img : ImageT) (R : Ray) (tmin tmax : EReal)
    (h : candidates R tmin tmax = []) :
    TraceRay img R tmin tmax = (WHITE, img) := by
  have hfold :
      objects.foldl (traceStep tmin tmax R) ((⊤ : EReal), (none : Option Sphere)) =
        ((⊤ : EReal), (none : Option Sphere)) := by
    rw [foldl_traceStep_eq]
    rw [show objects.flatMap (candOf R tmin tmax) = [] from h]
    rfl
  unfold TraceRay
  rw [hfold]

/-- C9: `TraceRay` neither writes nor reads the image buffer handed to it: the
buffer it returns is the one it received, and the color it returns is the same
for any two buffers. -/
theorem traceRay_ignores_buffer (img img' : ImageT) (R : Ray) (tmin tmax : EReal) :
    (TraceRay img R tmin tmax).2 = img ∧
    (TraceRay img R tmin tmax).1 = (TraceRay img' R tmin tmax).1 :=
  ⟨traceRay_snd img R tmin tmax, traceRay_fst_congr img img' R tmin tmax⟩

/-- C10: for a ray with nonzero direction, the divisor `2a` used for both
t-values in `IntersectRaySphere` is strictly positive, since
`a = dot(direction, direction) > 0`. -/
theorem intersect_divisor_pos (R : Ray) (sp : Sphere) (h : R.direction ≠ Vector3Zero) :
    0 < 2 * coeffA R := by
  rcases (coeffA_nonneg R).lt_or_eq with ha | ha
  · linarith
  · exfalso
    apply h
    have hsum : R.direction.x * R.direction.x + R.direction.y * R.direction.y +
        R.direction.z * R.direction.z = 0 := by
      have hA : coeffA R = R.direction.x * R.direction.x + R.direction.y * R.direction.y +
          R.direction.z * R.direction.z := rfl
      have h0 : coeffA R = 0 := ha.symm
      rw [hA] at h0
      linarith
    have hx2 : R.direction.x * R.direction.x = 0 :=
      le_antisymm (by nlinarith [mul_self_nonneg R.direction.y, mul_self_nonneg R.direction.z])
        (mul_self_nonneg _)
    have hy2 : R.direction.y * R.direction.y = 0 :=
      le_antisymm (by nlinarith [mul_self_nonneg R.direction.x, mul_self_nonneg R.direction.z])
        (mul_self_nonneg _)
    have hz2 : R.direction.z * R.direction.z = 0 :=
      le_antisymm (by nlinarith [mul_self_nonneg R.direction.x, mul_self_nonneg R.direction.y])
        (mul_self_nonneg _)
    have hx := mul_self_eq_zero.mp hx2
    have hy := mul_self_eq_zero.mp hy2
    have hz := mul_self_eq_zero.mp hz2
    have heta : R.direction = ⟨R.direction.x, R.direction.y, R.direction.z⟩ := rfl
    rw [heta, hx, hy, hz]
    rfl

/-- Witness for C10 at a concrete nonzero-direction ray. -/
theorem intersect_divisor_pos_w : 0 < 2 * coeffA ray0 :=
  intersect_divisor_pos ray0 sphere0 (by
    intro hcontra
    have h1 : (1 : ℝ) = 0 := congrArg Vec3.z hcontra
    norm_num at h1)

/-! ## Evaluation at concrete rays -/

theorem disc_ray0_sphere0 : discriminant ray0 sphere0 = 0 := by
  norm_num [discriminant, coeffA, coeffB, coeffC, Vector3DotProduct, Vector3Subtract,
    CAMERA_ORIGIN, ray0, sphere0]

theorem inter_ray0_sphere0 :
    IntersectRaySphere ray0 sphere0 = ⟨((3 : ℝ) : EReal), ((3 : ℝ) : EReal)⟩ := by
  rw [IntersectRaySphere, if_neg (by rw [disc_ray0_sphere0]; norm_num), disc_ray0_sphere0]
  norm_num [coeffA, coeffB, Vector3DotProduct, Vector3Subtract, CAMERA_ORIGIN, ray0, sphere0,
    RayIntersection.mk.injEq, EReal.coe_eq_coe_iff]

theorem inter_ray0_sphere1 : IntersectRaySphere ray0 sphere1 = ⟨⊤, ⊤⟩ := by
  rw [IntersectRaySphere, if_pos]
  norm_num [discriminant, coeffA, coeffB, coeffC, Vector3DotProduct, Vector3Subtract,
    CAMERA_ORIGIN, ray0, sphere1]

theorem inter_ray0_sphere2 : IntersectRaySphere ray0 sphere2 = ⟨⊤, ⊤⟩ := by
  rw [IntersectRaySphere, if_pos]
  norm_num [discriminant, coeffA, coeffB, coeffC, Vector3DotProduct, Vector3Subtract,
    CAMERA_ORIGIN, ray0, sphere2]

theorem inter_ray0_sphere3 : IntersectRaySphere ray0 sphere3 = ⟨⊤, ⊤⟩ := by
  rw [IntersectRaySphere, if_pos]
  norm_num [discriminant, coeffA, coeffB, coeffC, Vector3DotProduct, Vector3Subtract,
    CAMERA_ORIGIN, ray0, sphere3]

theorem candOf_ray0_sphere0 :
    candOf ray0 1 ⊤ sphere0 = [(sphere0, ((3 : ℝ) : EReal)), (sphere0, ((3 : ℝ) : EReal))] := by
  have h13 : (1 : EReal) ≤ ((3 : ℝ) : EReal) := by
    rw [← EReal.coe_one, EReal.coe_le_coe_iff]
    norm_num
  simp [candOf, inter_ray0_sphere0, h13, EReal.coe_ne_top, le_top]

theorem candOf_ray0_sphere1 : candOf ray0 1 ⊤ sphere1 = [] := by
  simp [candOf, inter_ray0_sphere1]

theorem candOf_ray0_sphere2 : candOf ray0 1 ⊤ sphere2 = [] := by
  simp [candOf, inter_ray0_sphere2]

theorem candOf_ray0_sphere3 : candOf ray0 1 ⊤ sphere3 = [] := by
  simp [candOf, inter_ray0_sphere3]

theorem candidates_ray0 :
    candidates ray0 1 ⊤ = [(sphere0, ((3 : ℝ) : EReal)), (sphere0, ((3 : ℝ) : EReal))] := by
  rw [candidates, objects]
  simp [candOf_ray0_sphere0, candOf_ray0_sphere1, candOf_ray0_sphere2, candOf_ray0_sphere3]

theorem disc_rayDown_sphere0 : discriminant rayDown sphere0 = 0 := by
  norm_num [discriminant, coeffA, coeffB, coeffC, Vector3DotProduct, Vector3Subtract,
    CAMERA_ORIGIN, rayDown, sphere0]

theorem inter_rayDown_sphere0 :
    IntersectRaySphere rayDown sphere0 = ⟨((-3 : ℝ) : EReal), ((-3 : ℝ) : EReal)⟩ := by
  rw [IntersectRaySphere, if_neg (by rw [disc_rayDown_sphere0]; norm_num), disc_rayDown_sphere0]
  norm_num [coeffA, coeffB, Vector3DotProduct, Vector3Subtract, CAMERA_ORIGIN, rayDown, sphere0,
    RayIntersection.mk.injEq, EReal.coe_eq_coe_iff]

theorem inter_rayDown_sphere1 : IntersectRaySphere rayDown sphere1 = ⟨⊤, ⊤⟩ := by
  rw [IntersectRaySphere, if_pos]
  norm_num [discriminant, coeffA, coeffB, coeffC, Vector3DotProduct, Vector3Subtract,
    CAMERA_ORIGIN, rayDown, sphere1]

theorem inter_rayDown_sphere2 : IntersectRaySphere rayDown sphere2 = ⟨⊤, ⊤⟩ := by
  rw [IntersectRaySphere, if_pos]
  norm_num [discriminant, coeffA, coeffB, coeffC, Vector3DotProduct, Vector3Subtract,
    CAMERA_ORIGIN, rayDown, sphere2]

theorem inter_rayDown_sphere3 : IntersectRaySphere rayDown sphere3 = ⟨⊤, ⊤⟩ := by
  rw [IntersectRaySphere, if_pos]
  norm_num [discriminant, coeffA, coeffB, coeffC, Vector3DotProduct, Vector3Subtract,
    CAMERA_ORIGIN, rayDown, sphere3]

theorem candOf_rayDown_sphere0 : candOf rayDown 1 ⊤ sphere0 = [] := by
  have h1 : ((-3 : ℝ) : EReal) = -((3 : ℝ) : EReal) := EReal.coe_neg 3
  have hn : -((3 : ℝ) : EReal) < (1 : EReal) := by
    rw [← h1, ← EReal.coe_one, EReal.coe_lt_coe_iff]
    norm_num
  simp [candOf, inter_rayDown_sphere0, hn]

theorem candOf_rayDown_sphere1 : candOf rayDown 1 ⊤ sphere1 = [] := by
  simp [candOf, inter_rayDown_sphere1]

theorem candOf_rayDown_sphere2 : candOf rayDown 1 ⊤ sphere2 = [] := by
  simp [candOf, inter_rayDown_sphere2]

theorem candOf_rayDown_sphere3 : candOf rayDown 1 ⊤ sphere3 = [] := by
  simp [candOf, inter_rayDown_sphere3]

theorem candidates_rayDown : candidates rayDown 1 ⊤ = [] := by
  rw [candidates, objects]
  simp [candOf_rayDown_sphere0, candOf_rayDown_sphere1, candOf_rayDown_sphere2,
    candOf_rayDown_sphere3]

/-! ## Witnesses that apply the claim theorems at concrete inputs -/

/-- Witness for C1: the +z ray from the camera origin hits the red sphere
tangentially at t = 3; its accepted-candidate list holds exactly that hit twice
(once per root), and `TraceRay` shades the red sphere at t = 3. -/
theorem traceRay_nearest_hit_w :
    TraceRay initialImage ray0 1 ⊤ =
      (ColorMultiply sphere0.color
        (ComputeLighting (Vector3Add ray0.position (Vector3Scale ray0.direction 3))
          sphere0.center),
       initialImage) := by
  have h := traceRay_nearest_hit initialImage ray0 1 ⊤ 0 (sphere0, ((3 : ℝ) : EReal))
    (by rw [candidates_ray0]; rfl)
    (by
      rw [candidates_ray0]
      intro q hq
      simp only [List.mem_cons, List.not_mem_nil, or_false] at hq
      rcases hq with rfl | rfl <;> exact le_refl _)
    (fun j hj _ _ => absurd hj (Nat.not_lt_zero j))
  simpa using h

/-- Witness for C2: at the +z camera ray, the blue sphere has negative
discriminant and yields the sentinel pair, while the red sphere has zero
discriminant and yields the ordered pair (3, 3). -/
theorem intersectRaySphere_roots_w :
    IntersectRaySphere ray0 sphere1 = ⟨⊤, ⊤⟩ ∧
    IntersectRaySphere ray0 sphere0 = ⟨((3 : ℝ) : EReal), ((3 : ℝ) : EReal)⟩ ∧
    (IntersectRaySphere ray0 sphere0).t2 ≤ (IntersectRaySphere ray0 sphere0).t1 := by
  refine ⟨(intersectRaySphere_roots ray0 sphere1).1 (by
      norm_num [discriminant, coeffA, coeffB, coeffC, Vector3DotProduct, Vector3Subtract,
        CAMERA_ORIGIN, ray0, sphere1]), ?_, ?_⟩
  · have h := (intersectRaySphere_roots ray0 sphere0).2.1 (by rw [disc_ray0_sphere0])
    rw [h, disc_ray0_sphere0]
    norm_num [coeffA, coeffB, Vector3DotProduct, Vector3Subtract, CAMERA_ORIGIN, ray0, sphere0,
      RayIntersection.mk.injEq, EReal.coe_eq_coe_iff]
  · exact (intersectRaySphere_roots ray0 sphere0).2.2
      (by rw [inter_ray0_sphere0]; exact EReal.coe_ne_top 3)
      (by rw [inter_ray0_sphere0]; exact EReal.coe_ne_top 3)

/-- Witness for C7: the -z ray from the camera origin yields no accepted
candidate from any sphere, and `TraceRay` falls through to `WHITE`. -/
theorem traceRay_background_w :
    TraceRay initialImage rayDown 1 ⊤ = (WHITE, initialImage) :=
  traceRay_background initialImage rayDown 1 ⊤ candidates_rayDown

end CG
